import Mathlib

/-!
Verification of `oscilloscope_vocabulary` (layers.py) against its
natural-language specification.

The Python module is shallowly embedded below:
  * the taxonomy tables `HarmonicProfiles.PROFILES` and
    `ConstraintLevels.LEVELS` become Lean structures and lookup functions;
  * `HarmonicMapper.map_colors` and `ConstraintTranslator.translate`
    become pure Lean functions over exact rationals (the decimal literals
    of the source are read as the rationals they denote; for every value
    that reaches `int(x * 100)`-style formatting the float computation of
    the source and the exact rational computation agree, which was checked
    value by value);
  * the pixel classification and ratio reporting of `ColorExtractor.extract`
    become counting functions plus a round-half-to-even model of the
    Python built-in `round(x, 3)`;
  * the numeric pipelines of the two renderers (`np.linspace` sampling, waveform
    synthesis, the max-abs normalization guard, the margin mapping of
    coordinates) are embedded over `ℝ` with `Real.sin` for `np.sin`.
-/

namespace OscVocab

/-! ## Layer 1: taxonomy tables -/

/-- A harmonic profile, one entry of `HarmonicProfiles.PROFILES`. -/
structure Profile where
  frequencies : List ℚ
  amplitudes : List ℚ
  description : String
  complexity : String
deriving DecidableEq

/-- PROFILES["simple"]. -/
def simpleProfile : Profile :=
  { frequencies := [1]
    amplitudes := [1]
    description := "Pure fundamental tone, clean sine wave"
    complexity := "low" }

/-- PROFILES["harmonic_rich"]. -/
def harmonicRichProfile : Profile :=
  { frequencies := [1, 2, 3, 4]
    amplitudes := [1, 1/2, 33/100, 1/4]
    description := "Rich harmonic series, complex waveform with overtones"
    complexity := "medium" }

/-- PROFILES["complex_lissajous"]. -/
def complexLissajousProfile : Profile :=
  { frequencies := [1, 3/2, 23/10]
    amplitudes := [1, 7/10, 2/5]
    description := "Inharmonic ratios create Lissajous patterns"
    complexity := "high" }

/-- PROFILES["chaotic"]. -/
def chaoticProfile : Profile :=
  { frequencies := [1, 27/10, 16/5, 24/5, 51/10]
    amplitudes := [1, 3/5, 2/5, 3/10, 1/5]
    description := "Dense frequency content, intricate waveform"
    complexity := "very_high" }

/-- HarmonicProfiles.get: `cls.PROFILES.get(name, cls.PROFILES["harmonic_rich"])`. -/
def HarmonicProfiles.get (name : String) : Profile :=
  if name = "simple" then simpleProfile
  else if name = "harmonic_rich" then harmonicRichProfile
  else if name = "complex_lissajous" then complexLissajousProfile
  else if name = "chaotic" then chaoticProfile
  else harmonicRichProfile

/-- One entry of `ConstraintLevels.LEVELS`. -/
structure ConstraintLevel where
  fidelity : ℚ
  color_tolerance : ℚ
  complexity_delta : ℚ
  description : String
  profile : String
deriving DecidableEq

/-- LEVELS["very_loose"]. -/
def veryLooseLevel : ConstraintLevel :=
  { fidelity := 3/10
    color_tolerance := 1/2
    complexity_delta := 3/5
    description := "Loose interpretation, significant creative freedom"
    profile := "chaotic" }

/-- LEVELS["loose"]. -/
def looseLevel : ConstraintLevel :=
  { fidelity := 1/2
    color_tolerance := 13/20
    complexity_delta := 2/5
    description := "Relaxed constraints, creative exploration"
    profile := "complex_lissajous" }

/-- LEVELS["balanced"]. -/
def balancedLevel : ConstraintLevel :=
  { fidelity := 13/20
    color_tolerance := 3/4
    complexity_delta := 1/4
    description := "Balanced between constraint and freedom"
    profile := "harmonic_rich" }

/-- LEVELS["strict"]. -/
def strictLevel : ConstraintLevel :=
  { fidelity := 4/5
    color_tolerance := 9/10
    complexity_delta := 1/10
    description := "Tight harmonic adherence, minimal deviation"
    profile := "harmonic_rich" }

/-- LEVELS["very_strict"]. -/
def veryStrictLevel : ConstraintLevel :=
  { fidelity := 19/20
    color_tolerance := 49/50
    complexity_delta := 1/20
    description := "Strict fidelity to structure and color ratios"
    profile := "simple" }

/-- ConstraintLevels.get: `cls.LEVELS.get(name, cls.LEVELS["balanced"])`. -/
def ConstraintLevels.get (name : String) : ConstraintLevel :=
  if name = "very_loose" then veryLooseLevel
  else if name = "loose" then looseLevel
  else if name = "balanced" then balancedLevel
  else if name = "strict" then strictLevel
  else if name = "very_strict" then veryStrictLevel
  else balancedLevel

/-- The five recognized constraint-level ids (the keys of LEVELS). -/
def levelIds : List String :=
  ["very_loose", "loose", "balanced", "strict", "very_strict"]

/-! ## Layer 1: HarmonicMapper.map_colors -/

/-- The `color_ratios` dict argument of `map_colors`.  Each key the code
reads with `.get(key, default)` is an optional field; `balanced` models
`color_ratios.get("color_balance", {}).get("balanced")`, whose Python
truthiness is `getD false` (a missing key yields `None`, which is falsy). -/
structure ColorRatios where
  warmRatio : Option ℚ
  coolRatio : Option ℚ
  neutralRatio : Option ℚ
  balanced : Option Bool
deriving DecidableEq

/-- The dict returned by `HarmonicMapper.map_colors`; `color_mapping` is
flattened into its three numeric fields. -/
structure MapColorsResult where
  base_profile : String
  frequencies : List ℚ
  amplitudes : List ℚ
  description : String
  complexity : String
  mappingWarm : ℚ
  mappingCool : ℚ
  mappingNeutral : ℚ
deriving DecidableEq

/-- HarmonicMapper.map_colors, translated line by line from the source. -/
def HarmonicMapper.map_colors (cr : ColorRatios)
    (complexityPreference : String := "balanced") : MapColorsResult :=
  let warm := cr.warmRatio.getD (33/100)
  let cool := cr.coolRatio.getD (33/100)
  let neutral := cr.neutralRatio.getD (34/100)
  let baseProfileName :=
    if cr.balanced.getD false then "harmonic_rich"
    else if warm > 45/100 then "complex_lissajous"
    else if cool > 45/100 then "complex_lissajous"
    else "harmonic_rich"
  let profile := HarmonicProfiles.get baseProfileName
  let profile :=
    if complexityPreference = "simple" then HarmonicProfiles.get "simple"
    else if complexityPreference = "complex" then HarmonicProfiles.get "chaotic"
    else profile
  { base_profile := baseProfileName
    frequencies := profile.frequencies
    amplitudes := profile.amplitudes
    description := profile.description
    complexity := profile.complexity
    mappingWarm := warm
    mappingCool := cool
    mappingNeutral := neutral }

/-! ## Layer 1: ConstraintTranslator.translate -/

/-- The `instructions` sub-dict of the translate result. -/
structure Instructions where
  fidelity : String
  color : String
  complexity : String
deriving DecidableEq

/-- The dict returned by `ConstraintTranslator.translate`. -/
structure TranslateResult where
  constraint_level : String
  narrative : String
  fidelity : ℚ
  color_tolerance : ℚ
  complexity_delta : ℚ
  suggested_harmonic_profile : String
  instructions : Instructions
deriving DecidableEq

/-- The Python built-in `int` on the nonnegative values reaching it here is
truncation toward zero, i.e. the floor. -/
def intTrunc (q : ℚ) : ℤ := ⌊q⌋

/-- ConstraintTranslator.translate, translated line by line from the
source.  The f-string interpolations become explicit concatenations;
`int(x * 100)` and `int(x * 100 * 10)` become `intTrunc`. -/
def ConstraintTranslator.translate (constraintLevel direction : String) :
    TranslateResult :=
  let c := ConstraintLevels.get constraintLevel
  let narrative :=
    if direction = "forward" then
      "Transform the input image with " ++ c.description.toLower
    else
      "Guide image generation from user prompt with " ++ c.description.toLower
  { constraint_level := constraintLevel
    narrative := narrative
    fidelity := c.fidelity
    color_tolerance := c.color_tolerance
    complexity_delta := c.complexity_delta
    suggested_harmonic_profile := c.profile
    instructions :=
      { fidelity := "Maintain " ++ toString (intTrunc (c.fidelity * 100)) ++
          "% structural fidelity to source"
        color := "Keep color ratios within " ++
          toString (intTrunc (c.color_tolerance * 100)) ++ "% tolerance"
        complexity := "Allow " ++
          toString (intTrunc (c.complexity_delta * 100 * 10)) ++
          "% complexity variation" } }

/-! ## Layer 1: ColorExtractor.extract (pixel classification and ratios) -/

/-- The category a pixel is put into by the `if r > g and r > b`,
`elif b > g and b > r`, `else` chain of `ColorExtractor.extract`. -/
inductive ColorClass where
  | warm
  | cool
  | neutral
deriving DecidableEq

/-- The classification chain of `ColorExtractor.extract` for one RGB pixel. -/
def classify (r g b : ℕ) : ColorClass :=
  if r > g ∧ r > b then ColorClass.warm
  else if b > g ∧ b > r then ColorClass.cool
  else ColorClass.neutral

/-- An RGB pixel as produced by `img.getdata()` after the RGB conversion. -/
abbrev Pixel := ℕ × ℕ × ℕ

/-- warm_count accumulated by the pixel loop. -/
def warmCount (pixels : List Pixel) : ℕ :=
  pixels.countP fun p => decide (classify p.1 p.2.1 p.2.2 = ColorClass.warm)

/-- cool_count accumulated by the pixel loop. -/
def coolCount (pixels : List Pixel) : ℕ :=
  pixels.countP fun p => decide (classify p.1 p.2.1 p.2.2 = ColorClass.cool)

/-- neutral_count accumulated by the pixel loop. -/
def neutralCount (pixels : List Pixel) : ℕ :=
  pixels.countP fun p => decide (classify p.1 p.2.1 p.2.2 = ColorClass.neutral)

/-- The Python built-in `round` to an integer: round half to even. -/
def roundHalfEven (x : ℚ) : ℤ :=
  if x - ⌊x⌋ < 1/2 then ⌊x⌋
  else if 1/2 < x - ⌊x⌋ then ⌊x⌋ + 1
  else if Even ⌊x⌋ then ⌊x⌋ else ⌊x⌋ + 1

/-- The Python built-in `round(x, 3)` as used on the reported ratios. -/
def round3 (x : ℚ) : ℚ := (roundHalfEven (x * 1000) : ℚ) / 1000

/-- warm_ratio as reported by `ColorExtractor.extract`. -/
def warmRatioOf (pixels : List Pixel) : ℚ :=
  round3 ((warmCount pixels : ℚ) / (pixels.length : ℚ))

/-- cool_ratio as reported by `ColorExtractor.extract`. -/
def coolRatioOf (pixels : List Pixel) : ℚ :=
  round3 ((coolCount pixels : ℚ) / (pixels.length : ℚ))

/-- neutral_ratio as reported by `ColorExtractor.extract`. -/
def neutralRatioOf (pixels : List Pixel) : ℚ :=
  round3 ((neutralCount pixels : ℚ) / (pixels.length : ℚ))

/-! ## Layer 2: OscilloscopeRenderer

The numeric pipeline is embedded over `ℝ` (`np.sin` becomes `Real.sin`,
`np.linspace` becomes the closed-form sample points).  The PIL image is
modelled by its dimensions: every PIL drawing call mutates pixel contents
only and never the size, and no claim concerns pixel contents.  The PIL
PNG encoder is modelled by the bytes the claims rely on — the fixed 8-byte PNG
signature followed by the IHDR width and height fields — and `base64` by a
full base64 encoder. -/

/-- The `PIL.Image` object, recorded by its dimensions (drawing calls
never change them). -/
structure Img where
  width : ℕ
  height : ℕ
deriving DecidableEq

/-- Big-endian 4-byte encoding, as used for PNG IHDR width/height. -/
def be32 (n : ℕ) : List ℕ :=
  [n / 2 ^ 24 % 256, n / 2 ^ 16 % 256, n / 2 ^ 8 % 256, n % 256]

/-- Modelled from the spec: PIL `img.save(buffered, format="PNG")` emits a
PNG stream — the fixed signature and an IHDR chunk recording width and
height.  Only those bytes are modelled; the pixel payload is not, since no
claim depends on it. -/
def pngBytes (img : Img) : List ℕ :=
  [137, 80, 78, 71, 13, 10, 26, 10] ++ be32 img.width ++ be32 img.height

/-- The base64 alphabet. -/
def b64Alphabet : List Char :=
  "ABCDEFGHIJKLMNOPQRSTUVWXYZabcdefghijklmnopqrstuvwxyz0123456789+/".toList

/-- One alphabet character. -/
def b64Char (n : ℕ) : Char := b64Alphabet.getD n 'A'

/-- Encode a final group of 1-3 bytes into 4 base64 characters. -/
def b64Group : List ℕ → List Char
  | [a] => [b64Char (a / 4), b64Char (a % 4 * 16), '=', '=']
  | [a, b] => [b64Char (a / 4), b64Char (a % 4 * 16 + b / 16),
      b64Char (b % 16 * 4), '=']
  | [a, b, c] => [b64Char (a / 4), b64Char (a % 4 * 16 + b / 16),
      b64Char (b % 16 * 4 + c / 64), b64Char (c % 64)]
  | _ => []

/-- `base64.b64encode`. -/
def b64Encode : List ℕ → List Char
  | a :: b :: c :: rest => b64Group [a, b, c] ++ b64Encode rest
  | rest => b64Group rest

/-- `base64.b64encode(...).decode()` as a string. -/
def b64EncodeStr (bytes : List ℕ) : String := String.mk (b64Encode bytes)

open Real in
/-- Sample `k` of `np.linspace(0, 4 * np.pi, width)`, the waveform `t`. -/
noncomputable def tWave (width k : ℕ) : ℝ :=
  4 * π * k / ((width : ℝ) - 1)

/-- The synthesized waveform value
`sum(amp * sin(freq * t) for freq, amp in zip(frequencies, amplitudes))`. -/
noncomputable def waveRaw (freqs amps : List ℝ) (t : ℝ) : ℝ :=
  ((freqs.zip amps).map fun p => p.2 * Real.sin (p.1 * t)).sum

/-- `np.max(np.abs(waveform))` over the `width` samples. -/
noncomputable def maxAbsWave (freqs amps : List ℝ) (width : ℕ) : ℝ :=
  ((List.range width).map fun k => |waveRaw freqs amps (tWave width k)|).foldr max 0

/-- The waveform after the guarded normalization
`if np.max(np.abs(waveform)) > 0: waveform = waveform / ...`. -/
noncomputable def waveNormalized (freqs amps : List ℝ) (width k : ℕ) : ℝ :=
  if 0 < maxAbsWave freqs amps width then
    waveRaw freqs amps (tWave width k) / maxAbsWave freqs amps width
  else
    waveRaw freqs amps (tWave width k)

/-- `y_coords = ((waveform + 1) / 2 * (height - 40)) + 20`. -/
noncomputable def yCoordWave (freqs amps : List ℝ) (width height k : ℕ) : ℝ :=
  (waveNormalized freqs amps width k + 1) / 2 * ((height : ℝ) - 40) + 20

/-- `Image.new` at (width, height) followed by the drawing calls:
the result has exactly the requested dimensions. -/
def waveImage (width height : ℕ) : Img := { width := width, height := height }

/-- OscilloscopeRenderer.render_waveform: the returned data URI. -/
noncomputable def render_waveform (freqs amps : List ℝ)
    (width : ℕ := 400) (height : ℕ := 300) : String :=
  let _ := fun k => yCoordWave freqs amps width height k
  "data:image/png;base64," ++ b64EncodeStr (pngBytes (waveImage width height))

/-- Lissajous X-axis frequency: `frequencies[0] if len(frequencies) > 0 else 1.0`. -/
def freqX (freqs : List ℝ) : ℝ := freqs.getD 0 1

/-- Lissajous Y-axis frequency: `frequencies[1] if len(frequencies) > 1 else 1.0`. -/
def freqY (freqs : List ℝ) : ℝ := freqs.getD 1 1

/-- Lissajous X-axis amplitude: `amplitudes[0] if len(amplitudes) > 0 else 1.0`. -/
def ampX (amps : List ℝ) : ℝ := amps.getD 0 1

/-- Lissajous Y-axis amplitude: `amplitudes[1] if len(amplitudes) > 1 else 1.0`. -/
def ampY (amps : List ℝ) : ℝ := amps.getD 1 1

open Real in
/-- Sample `k` of `np.linspace(0, 2 * np.pi, 1000)`, the Lissajous `t`. -/
noncomputable def tLis (k : ℕ) : ℝ := 2 * π * k / 999

/-- `x = amp_x * np.sin(freq_x * t)`. -/
noncomputable def xLis (freqs amps : List ℝ) (k : ℕ) : ℝ :=
  ampX amps * Real.sin (freqX freqs * tLis k)

open Real in
/-- `y = amp_y * np.sin(freq_y * t + np.pi / 4)`. -/
noncomputable def yLis (freqs amps : List ℝ) (k : ℕ) : ℝ :=
  ampY amps * Real.sin (freqY freqs * tLis k + π / 4)

/-- `x_coords = ((x + 1) / 2 * (width - 40)) + 20`. -/
noncomputable def xCoordLis (freqs amps : List ℝ) (width k : ℕ) : ℝ :=
  (xLis freqs amps k + 1) / 2 * ((width : ℝ) - 40) + 20

/-- `y_coords = ((y + 1) / 2 * (height - 40)) + 20`. -/
noncomputable def yCoordLis (freqs amps : List ℝ) (height k : ℕ) : ℝ :=
  (yLis freqs amps k + 1) / 2 * ((height : ℝ) - 40) + 20

/-- OscilloscopeRenderer.render_lissajous: the returned data URI. -/
noncomputable def render_lissajous (freqs amps : List ℝ)
    (width : ℕ := 400) (height : ℕ := 400) : String :=
  let _ := fun k => (xCoordLis freqs amps width k, yCoordLis freqs amps height k)
  "data:image/png;base64," ++ b64EncodeStr (pngBytes (waveImage width height))

/-! ## Theorems -/

/-- C8: along the order [very_strict, strict, balanced, loose, very_loose]
the fidelity values of the constraint-level table are strictly decreasing
and the color_tolerance values are non-increasing. -/
theorem constraint_table_monotonicity :
    ((ConstraintLevels.get "very_strict").fidelity >
        (ConstraintLevels.get "strict").fidelity ∧
      (ConstraintLevels.get "strict").fidelity >
        (ConstraintLevels.get "balanced").fidelity ∧
      (ConstraintLevels.get "balanced").fidelity >
        (ConstraintLevels.get "loose").fidelity ∧
      (ConstraintLevels.get "loose").fidelity >
        (ConstraintLevels.get "very_loose").fidelity) ∧
    ((ConstraintLevels.get "very_strict").color_tolerance ≥
        (ConstraintLevels.get "strict").color_tolerance ∧
      (ConstraintLevels.get "strict").color_tolerance ≥
        (ConstraintLevels.get "balanced").color_tolerance ∧
      (ConstraintLevels.get "balanced").color_tolerance ≥
        (ConstraintLevels.get "loose").color_tolerance ∧
      (ConstraintLevels.get "loose").color_tolerance ≥
        (ConstraintLevels.get "very_loose").color_tolerance) := by
  refine ⟨⟨?_, ?_, ?_, ?_⟩, ?_, ?_, ?_, ?_⟩ <;>
    simp [ConstraintLevels.get, veryStrictLevel, strictLevel, balancedLevel,
      looseLevel, veryLooseLevel] <;> norm_num

/-- C3: for any constraint-level id other than the five recognized ones,
`ConstraintTranslator.translate` returns the parameters of the balanced entry
(fidelity 0.65, color_tolerance 0.75, complexity_delta 0.25, and the
balanced description) instead of failing. -/
theorem translate_unknown_level_falls_back_to_balanced
    (lvl dir : String) (h : lvl ∉ levelIds) :
    ConstraintLevels.get lvl = balancedLevel ∧
    (ConstraintTranslator.translate lvl dir).fidelity = 13/20 ∧
    (ConstraintTranslator.translate lvl dir).color_tolerance = 3/4 ∧
    (ConstraintTranslator.translate lvl dir).complexity_delta = 1/4 ∧
    (ConstraintLevels.get lvl).description =
      "Balanced between constraint and freedom" := by
  simp only [levelIds, List.mem_cons, List.not_mem_nil, or_false] at h
  push_neg at h
  obtain ⟨h1, h2, h3, h4, h5⟩ := h
  simp [ConstraintLevels.get, ConstraintTranslator.translate, balancedLevel,
    h1, h2, h3, h4, h5]

/-- Witness for C3 at the concrete unrecognized id "unknown_id". -/
theorem translate_unknown_level_falls_back_to_balanced_witness :
    ("unknown_id" ∉ levelIds) ∧
    (ConstraintLevels.get "unknown_id" = balancedLevel ∧
      (ConstraintTranslator.translate "unknown_id" "forward").fidelity = 13/20 ∧
      (ConstraintTranslator.translate "unknown_id" "forward").color_tolerance = 3/4 ∧
      (ConstraintTranslator.translate "unknown_id" "forward").complexity_delta = 1/4 ∧
      (ConstraintLevels.get "unknown_id").description =
        "Balanced between constraint and freedom") :=
  ⟨by decide,
    translate_unknown_level_falls_back_to_balanced "unknown_id" "forward" (by decide)⟩

/-- C9: the translate result carries the caller-supplied level string
verbatim in its constraint_level field, so after a fallback (here at
"mystery_level") the reported name differs from the level whose numeric
parameters are returned. -/
theorem translate_echoes_caller_level_verbatim (lvl dir : String) :
    (ConstraintTranslator.translate lvl dir).constraint_level = lvl ∧
    (ConstraintTranslator.translate "mystery_level" dir).fidelity =
      balancedLevel.fidelity ∧
    (ConstraintTranslator.translate "mystery_level" dir).color_tolerance =
      balancedLevel.color_tolerance ∧
    (ConstraintTranslator.translate "mystery_level" dir).constraint_level ≠
      "balanced" := by
  refine ⟨rfl, ?_, ?_, ?_⟩ <;>
    simp [ConstraintTranslator.translate, ConstraintLevels.get]

/-- C4: the three instruction strings of every translate result report
`int(fidelity * 100)` percent, `int(color_tolerance * 100)` percent, and
`int(complexity_delta * 100 * 10)` percent — complexity_delta is scaled by
an extra factor of 10, as the concrete evaluations at "balanced"
(0.25 → 250%) and "very_loose" (0.6 → 600%) exhibit. -/
theorem translate_instruction_percent_formatting (lvl dir : String) :
    ((ConstraintTranslator.translate lvl dir).instructions.fidelity =
      "Maintain " ++
        toString (intTrunc ((ConstraintLevels.get lvl).fidelity * 100)) ++
        "% structural fidelity to source" ∧
    (ConstraintTranslator.translate lvl dir).instructions.color =
      "Keep color ratios within " ++
        toString (intTrunc ((ConstraintLevels.get lvl).color_tolerance * 100)) ++
        "% tolerance" ∧
    (ConstraintTranslator.translate lvl dir).instructions.complexity =
      "Allow " ++
        toString (intTrunc ((ConstraintLevels.get lvl).complexity_delta * 100 * 10)) ++
        "% complexity variation") ∧
    (ConstraintTranslator.translate "balanced" dir).instructions.complexity =
      "Allow 250% complexity variation" ∧
    (ConstraintTranslator.translate "very_loose" dir).instructions.complexity =
      "Allow 600% complexity variation" ∧
    (ConstraintTranslator.translate "very_strict" dir).instructions.fidelity =
      "Maintain 95% structural fidelity to source" := by
  refine ⟨⟨rfl, rfl, rfl⟩, ?_, ?_, ?_⟩
  · simp only [ConstraintTranslator.translate,
      show ConstraintLevels.get "balanced" = balancedLevel from by
        simp [ConstraintLevels.get],
      show intTrunc (balancedLevel.complexity_delta * 100 * 10) = 250 from by
        norm_num [intTrunc, balancedLevel]]
    decide
  · simp only [ConstraintTranslator.translate,
      show ConstraintLevels.get "very_loose" = veryLooseLevel from by
        simp [ConstraintLevels.get],
      show intTrunc (veryLooseLevel.complexity_delta * 100 * 10) = 600 from by
        norm_num [intTrunc, veryLooseLevel]]
    decide
  · simp only [ConstraintTranslator.translate,
      show ConstraintLevels.get "very_strict" = veryStrictLevel from by
        simp [ConstraintLevels.get],
      show intTrunc (veryStrictLevel.fidelity * 100) = 95 from by
        norm_num [intTrunc, veryStrictLevel]]
    decide

/-- The base-selection rule exactly as the specification words it
(for claim C1): balanced flag → "harmonic_rich"; else warm_ratio > 0.45
or cool_ratio > 0.45 → "complex_lissajous"; otherwise "harmonic_rich".
Written from the spec sentence, to be compared with
`HarmonicMapper.map_colors`. -/
def specBaseSelection (cr : ColorRatios) : String :=
  if cr.balanced.getD false then "harmonic_rich"
  else if cr.warmRatio.getD (33/100) > 45/100 ∨
      cr.coolRatio.getD (33/100) > 45/100 then "complex_lissajous"
  else "harmonic_rich"

/-- The final selection rule as the specification words it (claim C1):
preference "simple" forces the minimal single-tone profile, "complex"
forces the densest multi-tone profile ("chaotic"), anything else keeps
the color-derived base selection. -/
def specFinalSelection (cr : ColorRatios) (pref : String) : String :=
  if pref = "simple" then "simple"
  else if pref = "complex" then "chaotic"
  else specBaseSelection cr

/-- C1: for every color-ratio input and preference, the profile data
returned by `HarmonicMapper.map_colors` is exactly that of the profile
selected by the decision rule as the spec words it, and its base_profile
field is exactly that base selection. -/
theorem map_colors_follows_decision_rule (cr : ColorRatios) (pref : String) :
    (HarmonicMapper.map_colors cr pref).base_profile = specBaseSelection cr ∧
    (HarmonicMapper.map_colors cr pref).frequencies =
      (HarmonicProfiles.get (specFinalSelection cr pref)).frequencies ∧
    (HarmonicMapper.map_colors cr pref).amplitudes =
      (HarmonicProfiles.get (specFinalSelection cr pref)).amplitudes ∧
    (HarmonicMapper.map_colors cr pref).description =
      (HarmonicProfiles.get (specFinalSelection cr pref)).description ∧
    (HarmonicMapper.map_colors cr pref).complexity =
      (HarmonicProfiles.get (specFinalSelection cr pref)).complexity := by
  unfold HarmonicMapper.map_colors specFinalSelection specBaseSelection
  by_cases hb : cr.balanced.getD false = true <;>
    by_cases hw : 45/100 < cr.warmRatio.getD (33/100) <;>
    by_cases hc : 45/100 < cr.coolRatio.getD (33/100) <;>
    by_cases hs : pref = "simple" <;>
    by_cases hx : pref = "complex" <;>
    simp [hb, hw, hc, hs, hx, HarmonicProfiles.get]

/-- C10: when the preference is "simple" or "complex" the returned
frequencies, amplitudes, description and complexity come from the override
profile ("simple" resp. "chaotic"), while the base_profile field still
names the color-derived selection (the same one an unrelated preference
reports), which therefore disagrees with the profile whose data is
returned. -/
theorem map_colors_override_keeps_base_profile_field (cr : ColorRatios) :
    ((HarmonicMapper.map_colors cr "simple").frequencies =
        simpleProfile.frequencies ∧
      (HarmonicMapper.map_colors cr "simple").amplitudes =
        simpleProfile.amplitudes ∧
      (HarmonicMapper.map_colors cr "simple").description =
        simpleProfile.description ∧
      (HarmonicMapper.map_colors cr "simple").complexity =
        simpleProfile.complexity ∧
      (HarmonicMapper.map_colors cr "simple").base_profile ≠ "simple") ∧
    ((HarmonicMapper.map_colors cr "complex").frequencies =
        chaoticProfile.frequencies ∧
      (HarmonicMapper.map_colors cr "complex").amplitudes =
        chaoticProfile.amplitudes ∧
      (HarmonicMapper.map_colors cr "complex").description =
        chaoticProfile.description ∧
      (HarmonicMapper.map_colors cr "complex").complexity =
        chaoticProfile.complexity ∧
      (HarmonicMapper.map_colors cr "complex").base_profile ≠ "chaotic") ∧
    (HarmonicMapper.map_colors cr "simple").base_profile =
      (HarmonicMapper.map_colors cr "balanced").base_profile ∧
    (HarmonicMapper.map_colors cr "complex").base_profile =
      (HarmonicMapper.map_colors cr "balanced").base_profile := by
  unfold HarmonicMapper.map_colors
  by_cases hb : cr.balanced.getD false = true <;>
    by_cases hw : 45/100 < cr.warmRatio.getD (33/100) <;>
    by_cases hc : 45/100 < cr.coolRatio.getD (33/100) <;>
    simp [hb, hw, hc, HarmonicProfiles.get]

/-- Rounding half to even moves a rational by at most one half. -/
lemma abs_roundHalfEven_sub_le (x : ℚ) : |(roundHalfEven x : ℚ) - x| ≤ 1/2 := by
  have h0 : (0:ℚ) ≤ x - ⌊x⌋ := by
    have := Int.floor_le x
    linarith
  have h1 : x - ⌊x⌋ < 1 := by
    have := Int.lt_floor_add_one x
    linarith
  unfold roundHalfEven
  split_ifs with hf hg he <;> rw [abs_le] <;> constructor <;> push_cast <;>
    linarith

/-- Rounding to 3 decimal places moves a rational by at most 1/2000. -/
lemma abs_round3_sub_le (x : ℚ) : |round3 x - x| ≤ 1/2000 := by
  have h := abs_roundHalfEven_sub_le (x * 1000)
  unfold round3
  rw [show (roundHalfEven (x * 1000) : ℚ) / 1000 - x =
      ((roundHalfEven (x * 1000) : ℚ) - x * 1000) / 1000 from by ring]
  rw [abs_div, abs_of_pos (by norm_num : (0:ℚ) < 1000)]
  linarith

/-- Every pixel lands in exactly one of the three categories, so the three
counts partition the sample. -/
lemma classify_counts_partition (pixels : List Pixel) :
    warmCount pixels + coolCount pixels + neutralCount pixels =
      pixels.length := by
  induction pixels with
  | nil => rfl
  | cons p l ih =>
    unfold warmCount coolCount neutralCount at *
    simp only [List.countP_cons, List.length_cons]
    cases h : classify p.1 p.2.1 p.2.2 <;> simp [h] <;> omega

/-- C2: the pixel loop of `ColorExtractor.extract` puts each sampled pixel
in exactly one of warm, cool, neutral (the three counts sum to the sample
size), and the three reported ratios — each rounded to 3 decimal places —
sum to 1 within ±0.01. -/
theorem extract_partition_and_ratio_sum (pixels : List Pixel)
    (h : pixels ≠ []) :
    warmCount pixels + coolCount pixels + neutralCount pixels =
      pixels.length ∧
    |warmRatioOf pixels + coolRatioOf pixels + neutralRatioOf pixels - 1| ≤
      1/100 := by
  have hpart := classify_counts_partition pixels
  refine ⟨hpart, ?_⟩
  have hn : (0:ℚ) < (pixels.length : ℚ) := by
    have : 0 < pixels.length := List.length_pos.mpr h
    exact_mod_cast this
  have hcast : (warmCount pixels : ℚ) + (coolCount pixels : ℚ) +
      (neutralCount pixels : ℚ) = (pixels.length : ℚ) := by
    exact_mod_cast hpart
  have hsum : (warmCount pixels : ℚ) / (pixels.length : ℚ) +
      (coolCount pixels : ℚ) / (pixels.length : ℚ) +
      (neutralCount pixels : ℚ) / (pixels.length : ℚ) = 1 := by
    field_simp
    linarith
  have hw := abs_round3_sub_le ((warmCount pixels : ℚ) / (pixels.length : ℚ))
  have hc := abs_round3_sub_le ((coolCount pixels : ℚ) / (pixels.length : ℚ))
  have hu := abs_round3_sub_le
    ((neutralCount pixels : ℚ) / (pixels.length : ℚ))
  have hrw : warmRatioOf pixels + coolRatioOf pixels + neutralRatioOf pixels
      - 1 =
      (round3 ((warmCount pixels : ℚ) / (pixels.length : ℚ)) -
        (warmCount pixels : ℚ) / (pixels.length : ℚ)) +
      (round3 ((coolCount pixels : ℚ) / (pixels.length : ℚ)) -
        (coolCount pixels : ℚ) / (pixels.length : ℚ)) +
      (round3 ((neutralCount pixels : ℚ) / (pixels.length : ℚ)) -
        (neutralCount pixels : ℚ) / (pixels.length : ℚ)) := by
    unfold warmRatioOf coolRatioOf neutralRatioOf
    rw [← hsum]
    ring
  rw [hrw]
  have t1 := abs_add
    (round3 ((warmCount pixels : ℚ) / (pixels.length : ℚ)) -
      (warmCount pixels : ℚ) / (pixels.length : ℚ))
    (round3 ((coolCount pixels : ℚ) / (pixels.length : ℚ)) -
      (coolCount pixels : ℚ) / (pixels.length : ℚ))
  have t2 := abs_add
    ((round3 ((warmCount pixels : ℚ) / (pixels.length : ℚ)) -
        (warmCount pixels : ℚ) / (pixels.length : ℚ)) +
      (round3 ((coolCount pixels : ℚ) / (pixels.length : ℚ)) -
        (coolCount pixels : ℚ) / (pixels.length : ℚ)))
    (round3 ((neutralCount pixels : ℚ) / (pixels.length : ℚ)) -
      (neutralCount pixels : ℚ) / (pixels.length : ℚ))
  linarith

/-- Witness for C2 at a concrete 3-pixel sample (one warm, one cool, one
neutral pixel; each ratio rounds to 0.333 and the sum 0.999 is within
±0.01 of 1). -/
theorem extract_partition_and_ratio_sum_witness :
    (([(255, 0, 0), (0, 0, 255), (10, 10, 10)] : List Pixel) ≠ []) ∧
    (warmCount [(255, 0, 0), (0, 0, 255), (10, 10, 10)] +
        coolCount [(255, 0, 0), (0, 0, 255), (10, 10, 10)] +
        neutralCount [(255, 0, 0), (0, 0, 255), (10, 10, 10)] =
        ([(255, 0, 0), (0, 0, 255), (10, 10, 10)] : List Pixel).length ∧
      |warmRatioOf [(255, 0, 0), (0, 0, 255), (10, 10, 10)] +
          coolRatioOf [(255, 0, 0), (0, 0, 255), (10, 10, 10)] +
          neutralRatioOf [(255, 0, 0), (0, 0, 255), (10, 10, 10)] - 1| ≤
        1/100) :=
  ⟨by decide,
    extract_partition_and_ratio_sum
      [(255, 0, 0), (0, 0, 255), (10, 10, 10)] (by decide)⟩

/-- The synthesized waveform of an empty frequency list is identically 0. -/
lemma waveRaw_nil_left (amps : List ℝ) (t : ℝ) : waveRaw [] amps t = 0 := by
  simp [waveRaw]

/-- The synthesized waveform of an empty amplitude list is identically 0. -/
lemma waveRaw_nil_right (freqs : List ℝ) (t : ℝ) : waveRaw freqs [] t = 0 := by
  simp [waveRaw]

/-- Folding max over a list of zeros gives zero. -/
lemma foldr_max_map_zero (l : List ℕ) :
    (l.map fun _ => (0:ℝ)).foldr max 0 = 0 := by
  induction l with
  | nil => rfl
  | cons a l ih =>
    simp only [List.map_cons, List.foldr_cons, ih]
    exact max_self 0

/-- Both input lists empty: the sample maximum is zero. -/
lemma maxAbsWave_nil (w : ℕ) : maxAbsWave [] [] w = 0 := by
  unfold maxAbsWave
  rw [show ((List.range w).map fun k => |waveRaw [] [] (tWave w k)|) =
      (List.range w).map fun _ => (0:ℝ) from by simp [waveRaw]]
  exact foldr_max_map_zero _

/-- C5: the waveform renderer never divides by zero — at every sample
either the maximum absolute waveform value is positive (the divisor is
nonzero) or the normalization step leaves the sample untouched — and for
every input, all-zero amplitudes included, the returned string is the
literal prefix followed by the base64 payload of a PNG stream whose IHDR
records exactly the requested width and height. -/
theorem render_waveform_division_guard_and_output
    (freqs amps : List ℝ) (width height k : ℕ) :
    (0 < maxAbsWave freqs amps width ∨
      waveNormalized freqs amps width k = waveRaw freqs amps (tWave width k)) ∧
    (∃ rest, render_waveform freqs amps width height =
      "data:image/png;base64," ++ rest) ∧
    (waveImage width height).width = width ∧
    (waveImage width height).height = height := by
  refine ⟨?_, ⟨_, rfl⟩, rfl, rfl⟩
  by_cases hm : 0 < maxAbsWave freqs amps width
  · exact Or.inl hm
  · refine Or.inr ?_
    unfold waveNormalized
    rw [if_neg hm]

/-- C6 counterexample: with both input lists empty `render_waveform` does
not substitute the default pair frequency 1.0, amplitude 1.0 — its
synthesized waveform is identically zero (sample 1 of the default
400-wide canvas shown here) and normalization is skipped, whereas the
default-substituted waveform is nonzero at that same sample. -/
theorem render_waveform_no_default_substitution :
    waveRaw [] [] (tWave 400 1) = 0 ∧
    maxAbsWave [] [] 400 = 0 ∧
    waveRaw [1] [1] (tWave 400 1) ≠ 0 := by
  refine ⟨waveRaw_nil_left [] _, maxAbsWave_nil 400, ?_⟩
  have hpi := Real.pi_pos
  have ht : tWave 400 1 = 4 * Real.pi / 399 := by
    unfold tWave
    norm_num
  have h0 : 0 < 4 * Real.pi / 399 := by positivity
  have h1 : 4 * Real.pi / 399 < Real.pi := by
    rw [div_lt_iff₀ (by norm_num : (0:ℝ) < 399)]
    linarith
  have hsin : 0 < Real.sin (tWave 400 1) := by
    rw [ht]
    exact Real.sin_pos_of_pos_of_lt_pi h0 h1
  have hval : waveRaw [1] [1] (tWave 400 1) = Real.sin (tWave 400 1) := by
    simp [waveRaw]
  rw [hval]
  exact ne_of_gt hsin

/-- C6 amended: the Lissajous renderer substitutes the defaults
frequency = 1.0 and amplitude = 1.0 for each missing first/second entry,
while the waveform renderer performs no substitution on empty input: its
waveform is identically zero, normalization is skipped, and both
renderers still return a data-URI string rather than raising. -/
theorem renderers_empty_input_behavior
    (amps freqs : List ℝ) (t : ℝ) (w h k : ℕ) :
    freqX [] = 1 ∧ freqY [] = 1 ∧ ampX [] = 1 ∧ ampY [] = 1 ∧
    freqY [2] = 1 ∧ ampY [2] = 1 ∧
    waveRaw [] amps t = 0 ∧ waveRaw freqs [] t = 0 ∧
    maxAbsWave [] [] w = 0 ∧
    waveNormalized [] [] w k = 0 ∧
    (∃ rest, render_waveform [] [] w h = "data:image/png;base64," ++ rest) ∧
    (∃ rest, render_lissajous [] [] w h = "data:image/png;base64," ++ rest) := by
  refine ⟨rfl, rfl, rfl, rfl, rfl, rfl,
    waveRaw_nil_left amps t, waveRaw_nil_right freqs t, maxAbsWave_nil w,
    ?_, ⟨_, rfl⟩, ⟨_, rfl⟩⟩
  unfold waveNormalized
  rw [if_neg (by rw [maxAbsWave_nil w]; exact lt_irrefl 0),
    waveRaw_nil_left]

/-- C7 counterexample: `render_lissajous` never normalizes, so with
amplitudes [2] and frequencies [999/4] — which makes sample 1 hit
sin(π/2) = 1 exactly — the X pixel coordinate of sample 1 on the default
400-wide canvas is 560, outside the claimed range [20, 380]. -/
theorem lissajous_margin_counterexample :
    xCoordLis [999/4] [2] 400 1 = 560 ∧
    ¬(xCoordLis [999/4] [2] 400 1 ≤ (400:ℝ) - 20) := by
  have harg : freqX [999/4] * tLis 1 = Real.pi / 2 := by
    unfold freqX tLis
    simp only [List.getD_cons_zero]
    push_cast
    ring
  have hx : xLis [999/4] [2] 1 = 2 := by
    unfold xLis
    rw [harg]
    simp [ampX, Real.sin_pi_div_two]
  have hco : xCoordLis [999/4] [2] 400 1 = 560 := by
    unfold xCoordLis
    rw [hx]
    norm_num
  exact ⟨hco, by rw [hco]; norm_num⟩

/-- A value of absolute value at most 1 is mapped by
`(x + 1) / 2 * (w - 40) + 20` into [20, w - 20] whenever w ≥ 40. -/
lemma coord_within_margin (x : ℝ) (hx : |x| ≤ 1) (w : ℕ) (hw : 40 ≤ w) :
    20 ≤ (x + 1) / 2 * ((w:ℝ) - 40) + 20 ∧
    (x + 1) / 2 * ((w:ℝ) - 40) + 20 ≤ (w:ℝ) - 20 := by
  obtain ⟨h1, h2⟩ := abs_le.mp hx
  have hw40 : (40:ℝ) ≤ (w:ℝ) := by exact_mod_cast hw
  constructor <;> nlinarith

/-- C7 amended: whenever the two axis amplitudes have absolute value at
most 1 (true of every predefined profile; without this bound the claim
fails, see the counterexample) and the canvas is at least 40px each way,
the pixel coordinates of every sampled Lissajous point lie within the fixed
20px margin: x in [20, width - 20] and y in [20, height - 20]. -/
theorem lissajous_coords_within_margin
    (freqs amps : List ℝ) (width height k : ℕ)
    (hx : |ampX amps| ≤ 1) (hy : |ampY amps| ≤ 1)
    (hw : 40 ≤ width) (hh : 40 ≤ height) :
    20 ≤ xCoordLis freqs amps width k ∧
    xCoordLis freqs amps width k ≤ (width:ℝ) - 20 ∧
    20 ≤ yCoordLis freqs amps height k ∧
    yCoordLis freqs amps height k ≤ (height:ℝ) - 20 := by
  have habs : ∀ θ : ℝ, |Real.sin θ| ≤ 1 := fun θ =>
    abs_le.mpr ⟨Real.neg_one_le_sin θ, Real.sin_le_one θ⟩
  have hxv : |xLis freqs amps k| ≤ 1 := by
    unfold xLis
    rw [abs_mul]
    calc |ampX amps| * |Real.sin (freqX freqs * tLis k)| ≤ 1 * 1 :=
          mul_le_mul hx (habs _) (abs_nonneg _) zero_le_one
      _ = 1 := one_mul 1
  have hyv : |yLis freqs amps k| ≤ 1 := by
    unfold yLis
    rw [abs_mul]
    calc |ampY amps| * |Real.sin (freqY freqs * tLis k + Real.pi / 4)| ≤
          1 * 1 := mul_le_mul hy (habs _) (abs_nonneg _) zero_le_one
      _ = 1 := one_mul 1
  obtain ⟨a1, a2⟩ := coord_within_margin _ hxv width hw
  obtain ⟨b1, b2⟩ := coord_within_margin _ hyv height hh
  exact ⟨a1, a2, b1, b2⟩

/-- Witness for the amended statement of C7 at the concrete input
frequencies [1, 1], amplitudes [1, 1], a 400 by 400 canvas, sample 0. -/
theorem lissajous_coords_within_margin_witness :
    (|ampX [(1:ℝ), 1]| ≤ 1 ∧ |ampY [(1:ℝ), 1]| ≤ 1 ∧
      (40 ≤ 400) ∧ (40 ≤ 400)) ∧
    (20 ≤ xCoordLis [1, 1] [1, 1] 400 0 ∧
      xCoordLis [1, 1] [1, 1] 400 0 ≤ (400:ℝ) - 20 ∧
      20 ≤ yCoordLis [1, 1] [1, 1] 400 0 ∧
      yCoordLis [1, 1] [1, 1] 400 0 ≤ (400:ℝ) - 20) :=
  ⟨⟨by simp [ampX], by simp [ampY], by norm_num, by norm_num⟩,
    lissajous_coords_within_margin [1, 1] [1, 1] 400 400 0
      (by simp [ampX]) (by simp [ampY]) (by norm_num) (by norm_num)⟩

end OscVocab
